import Mathlib

/-!
Verification of the streaming result-builder pipeline of
`src/robot/result/resultbuilder.py`.

The development shallowly embeds the event-stream filters
(`_omit_keywords`, `_flatten_keywords`), the status-message transform
(`_create_flattened_message`), the filter selection in `_parse`, the
error wrapping in `_single_result`, the `ExecutionResult` factory guard,
and the `RemoveKeywords` post-build visitor.  XML parse events are
modelled as a list of `(phase, element)` pairs; elements are immutable
records, and the in-place mutation of a status element's text is
modelled by emitting the rewritten element on the corresponding event.
-/

/-- Parse event phase: `Open` models the iterparse start event and
`Close` the end event. -/
inductive Phase : Type where
  | Open : Phase
  | Close : Phase
deriving DecidableEq, Repr

/-- An XML element as seen by the stream filters: tag name, attribute
list and optional text content. -/
structure Elem : Type where
  tag : String
  attrs : List (String × String)
  text : Option String
deriving DecidableEq, Repr

/-- Attribute lookup, modelling Python's `elem.get(key)` which yields
`None` for a missing attribute. -/
def Elem.get (e : Elem) (k : String) : Option String :=
  e.attrs.lookup k

/-- One stream event, as produced by `ET.iterparse`. -/
abbrev Event : Type := Phase × Elem

/-- Python's `str.startswith`, computed character by character so that
concrete instances evaluate. -/
def pyStartsWith (s pre : String) : Bool :=
  pre.data.isPrefixOf s.data

/-- Python's `s[n:]`: drop the first `n` characters. -/
def pyDrop (s : String) (n : Nat) : String :=
  String.mk (s.data.drop n)

/-- Python's `str.strip()`: remove leading and trailing whitespace. -/
def pyStrip (s : String) : String :=
  String.mk (((s.data.dropWhile Char.isWhitespace).reverse.dropWhile
    Char.isWhitespace).reverse)

/-- HTML escape of a single character. -/
def escapeChar (c : Char) : List Char :=
  if c = '&' then "&amp;".data
  else if c = '<' then "&lt;".data
  else if c = '>' then "&gt;".data
  else [c]

/-- Modelled from the spec: `robot.utils.html_escape` is not among the
provided sources.  The spec requires plain status text to be
HTML-escaped, with `a < b` becoming `a &lt; b`; we model escaping of the
three HTML special characters. -/
def htmlEscape (s : String) : String :=
  String.mk (s.data.foldr (fun c acc => escapeChar c ++ acc) [])

/-- `ExecutionResultBuilder._create_flattened_message`: rewrite of a
status element's text once its subtree has been flattened.  The `none`
input models a status element with no text (`elem.text is None`); Python
treats both `None` and the empty string as falsy. -/
def createFlattenedMessage (original : Option String) : String :=
  let start :=
    match original with
    | none => ""
    | some o =>
      if o = "" then ""
      else if pyStartsWith o "*HTML*" then pyStrip (pyDrop o 6) ++ "<hr>"
      else htmlEscape o ++ "<hr>"
  "*HTML* " ++ start ++ "<i>Content flattened.</i>"

/-- The omission predicate of `_omit_keywords`: an element opens an
omitted subtree when its tag is `kw`, `for` or `if` and its `type`
attribute is not `TEARDOWN` (a missing attribute is not `TEARDOWN`). -/
def omitRoot (e : Elem) : Bool :=
  (e.tag = "kw" || e.tag = "for" || e.tag = "if")
    && e.get "type" ≠ some "TEARDOWN"

/-- `ExecutionResultBuilder._omit_keywords`, transcribed event by event.
The integer counter `omitted` models `omitted_kws`.  The first component
of the result collects the forwarded events, the second the elements
cleared on suppressed close events (`elem.clear()`). -/
def omitKeywordsC : List Event → Int → List Event × List Elem
  | [], _ => ([], [])
  | (p, e) :: rest, omitted =>
    let om := omitRoot e
    let isStart : Bool := p = Phase.Open
    let omitted1 := if om && isStart then omitted + 1 else omitted
    let omitted2 := if om && !isStart then omitted1 - 1 else omitted1
    let next := omitKeywordsC rest omitted2
    if omitted1 = 0 then ((p, e) :: next.1, next.2)
    else if !isStart then (next.1, e :: next.2)
    else next

/-- Forwarded events of the omission filter. -/
def omitOut (l : List Event) (c : Int) : List Event :=
  (omitKeywordsC l c).1

/-- Specification-side description of the omission filter's forwarded
events, following the claim's words: a running counter of
currently-open omitted subtrees is incremented exactly on Open of a
kw/for/if element without teardown type, decremented after that
element's Close, and an event is forwarded iff the counter is zero at
that event. -/
def specOmitForward : List Event → Int → List Event
  | [], _ => []
  | (p, e) :: rest, c =>
    let atEvent := if omitRoot e && (p = Phase.Open : Bool) then c + 1 else c
    let after := if omitRoot e && (p = Phase.Close : Bool) then atEvent - 1 else atEvent
    (if atEvent = 0 then [(p, e)] else []) ++ specOmitForward rest after

/-- Specification-side description of the elements the omission filter
clears: exactly the suppressed elements, each cleared on its Close
event. -/
def specOmitCleared : List Event → Int → List Elem
  | [], _ => []
  | (p, e) :: rest, c =>
    let atEvent := if omitRoot e && (p = Phase.Open : Bool) then c + 1 else c
    let after := if omitRoot e && (p = Phase.Close : Bool) then atEvent - 1 else atEvent
    (if atEvent ≠ 0 && (p = Phase.Close : Bool) then [e] else [])
      ++ specOmitCleared rest after

/-- The three flattening matchers handed to `_flatten_keywords` by
`_get_matcher`.  The matcher classes live outside the provided sources,
so the filter is parametrised over their `match` functions together with
the `bool(matcher)` flags (`by_name`, `by_type`, `by_tags`). -/
structure Matchers : Type where
  byName : Bool
  nameMatch : String → Option String → Bool
  byType : Bool
  typeMatch : String → Bool
  byTags : Bool
  tagsMatch : List String → Bool

/-- Python's `a or b` on optional strings: the right operand is used
when the left is `None` or empty. -/
def pyOr (a b : Option String) : Option String :=
  match a with
  | some s => if s = "" then b else some s
  | none => b

/-- Mutable state of `_flatten_keywords`: `started` is `-1` while not
flattening and counts nested container entries while flattening;
`tags` accumulates sibling tag texts; `inside` counts open container
elements. -/
structure FState : Type where
  started : Int
  tags : List String
  inside : Int
deriving DecidableEq, Repr

/-- The container tag set of `_flatten_keywords`. -/
def isContainer (t : String) : Bool :=
  t = "kw" || t = "for" || t = "while" || t = "iter" || t = "if" || t = "try"

/-- State update and element rewrite performed by one iteration of
`_flatten_keywords` before the forward/suppress decision: the container
bookkeeping and matcher evaluation on Open, and the container exit,
tag accumulation and status rewrite on Close. -/
def flattenStepMid (m : Matchers) (s : FState) (p : Phase) (e : Elem) :
    FState × Elem :=
  match p with
  | Phase.Open =>
    if isContainer e.tag then
      let inside := s.inside + 1
      if 0 ≤ s.started then
        ({ started := s.started + 1, tags := [], inside }, e)
      else if m.byName
          && m.nameMatch ((e.get "name").getD "") (pyOr (e.get "owner") (e.get "library")) then
        ({ started := 0, tags := [], inside }, e)
      else if m.byType && m.typeMatch e.tag then
        ({ started := 0, tags := [], inside }, e)
      else
        ({ started := s.started, tags := [], inside }, e)
    else (s, e)
  | Phase.Close =>
    if isContainer e.tag then
      ({ s with inside := s.inside - 1 }, e)
    else if m.byTags && s.inside ≠ 0 && s.started < 0 && e.tag = "tag" then
      let tags := s.tags ++ [(e.text).getD ""]
      if m.tagsMatch tags then ({ s with tags, started := 0 }, e)
      else ({ s with tags }, e)
    else if s.started = 0 && e.tag = "status" then
      (s, { e with text := some (createFlattenedMessage e.text) })
    else (s, e)

/-- The forward/suppress decision of `_flatten_keywords`: an event is
forwarded when `started <= 0` or the tag is `msg`. -/
def flattenForward (m : Matchers) (s : FState) (p : Phase) (e : Elem) : Bool :=
  ((flattenStepMid m s p e).1.started ≤ 0 : Bool) || e.tag = "msg"

/-- The state handed to the next iteration: after the forward decision,
`started` is decremented on Close of a container while flattening. -/
def flattenNext (m : Matchers) (s : FState) (p : Phase) (e : Elem) : FState :=
  let s1 := (flattenStepMid m s p e).1
  if (0 ≤ s1.started : Bool) && (p = Phase.Close : Bool) && isContainer e.tag then
    { s1 with started := s1.started - 1 }
  else s1

/-- `ExecutionResultBuilder._flatten_keywords`, transcribed event by
event: forwarded events, cleared (suppressed) elements, and the final
filter state. -/
def runFlatten (m : Matchers) : List Event → FState → List Event × List Elem × FState
  | [], s => ([], [], s)
  | (p, e) :: rest, s =>
    let next := runFlatten m rest (flattenNext m s p e)
    if flattenForward m s p e then
      ((p, (flattenStepMid m s p e).2) :: next.1, next.2.1, next.2.2)
    else
      (next.1, (flattenStepMid m s p e).2 :: next.2.1, next.2.2)

/-- The initial state of `_flatten_keywords`. -/
def initialFState : FState :=
  { started := -1, tags := [], inside := 0 }

/-- Which stream filter `_parse` wraps around the event source. -/
inductive AppliedFilter : Type where
  | omission : AppliedFilter
  | flattening : AppliedFilter
  | noFilter : AppliedFilter
deriving DecidableEq, Repr

/-- The filter selection of `ExecutionResultBuilder._parse`: omission
when keywords are excluded, otherwise flattening when flatten patterns
were given (a `None` or empty pattern list is falsy), otherwise no
filter. -/
def chooseFilter (includeKeywords : Bool) (flattenedKeywords : List String) :
    AppliedFilter :=
  if !includeKeywords then AppliedFilter.omission
  else if !flattenedKeywords.isEmpty then AppliedFilter.flattening
  else AppliedFilter.noFilter

/-- Outcome of `ExecutionResultBuilder(...).build(result)` as observed
by `_single_result`: success with a result, an `IOError` carrying its
`strerror`, or any other exception carrying its error message. -/
inductive BuildOutcome (α : Type) : Type where
  | ok : α → BuildOutcome α
  | ioError : String → BuildOutcome α
  | otherError : String → BuildOutcome α
deriving DecidableEq, Repr

/-- A single-quote character, used in the failure message. -/
def squote : String :=
  String.singleton (Char.ofNat 39)

/-- The `DataError` message raised by `_single_result`. -/
def readingFailedMessage (sourceId cause : String) : String :=
  "Reading XML source " ++ squote ++ sourceId ++ squote ++ " failed: " ++ cause

/-- `_single_result`: a successful build returns the result unchanged;
any failure is collapsed into a single `DataError` naming the source and
the underlying cause, and no result is returned. -/
def singleResult {α : Type} (sourceId : String) (outcome : BuildOutcome α) :
    Except String α :=
  match outcome with
  | BuildOutcome.ok r => Except.ok r
  | BuildOutcome.ioError strerror => Except.error (readingFailedMessage sourceId strerror)
  | BuildOutcome.otherError msg => Except.error (readingFailedMessage sourceId msg)

/-- The `ExecutionResult` factory guard: with no sources it raises
`DataError` before any source is touched; otherwise it dispatches to the
merge/combine/single-result paths, abstracted as `dispatch`, which are
the only code that opens sources.  The first component records which
sources were opened. -/
def executionResultFactory {α : Type}
    (dispatch : List String → List String × Except String α)
    (sources : List String) : List String × Except String α :=
  if sources.isEmpty then ([], Except.error "One or more data source needed.")
  else dispatch sources

/-- A body item of a result node (keyword, control structure or
message), kept abstract: the detail-stripping pass never inspects it. -/
structure BodyItem : Type where
  label : String
deriving DecidableEq, Repr

/-- A test in the built result tree: `RemoveKeywords.visit_test` only
touches `body`. -/
structure TestCase : Type where
  name : String
  status : String
  body : List BodyItem
deriving DecidableEq, Repr

/-- A suite in the built result tree: `RemoveKeywords.start_suite` only
touches `setup` and `teardown`. -/
inductive TestSuite : Type where
  | mk : String → Option BodyItem → Option BodyItem →
      List TestSuite → List TestCase → TestSuite

/-- Suite name. -/
def TestSuite.name : TestSuite → String
  | TestSuite.mk n _ _ _ _ => n

/-- Suite setup. -/
def TestSuite.setup : TestSuite → Option BodyItem
  | TestSuite.mk _ s _ _ _ => s

/-- Suite teardown. -/
def TestSuite.teardown : TestSuite → Option BodyItem
  | TestSuite.mk _ _ t _ _ => t

/-- Child suites. -/
def TestSuite.suites : TestSuite → List TestSuite
  | TestSuite.mk _ _ _ ss _ => ss

/-- Tests of the suite. -/
def TestSuite.tests : TestSuite → List TestCase
  | TestSuite.mk _ _ _ _ ts => ts

mutual

/-- Modelled from the spec: the `SuiteVisitor` traversal of the external
`robot.model` package visits every suite and test in the tree; with the
`RemoveKeywords` overrides of `resultbuilder.py`, each visited suite's
setup and teardown are set to none and each visited test's body to the
empty list. -/
def removeKeywordsSuite : TestSuite → TestSuite
  | TestSuite.mk n _ _ ss ts =>
    TestSuite.mk n none none (removeKeywordsSuites ss)
      (ts.map fun t => { t with body := [] })

/-- `removeKeywordsSuite` mapped over child suites. -/
def removeKeywordsSuites : List TestSuite → List TestSuite
  | [] => []
  | s :: rest => removeKeywordsSuite s :: removeKeywordsSuites rest

end

/-- The tail of `ExecutionResultBuilder.build`: the `RemoveKeywords`
visitor is run on the suite exactly when keywords are excluded. -/
def buildFinalize (includeKeywords : Bool) (suite : TestSuite) : TestSuite :=
  if includeKeywords then suite else removeKeywordsSuite suite

mutual

/-- Does every suite in the tree have empty setup, teardown and test
bodies? -/
def suiteStripped : TestSuite → Bool
  | TestSuite.mk _ setup teardown ss ts =>
    setup = none && teardown = none && suitesStripped ss
      && ts.all fun t => t.body.isEmpty

/-- `suiteStripped` over a list of suites. -/
def suitesStripped : List TestSuite → Bool
  | [] => true
  | s :: rest => suiteStripped s && suitesStripped rest

end

/-- A skeleton of a test: every field `RemoveKeywords` must not touch. -/
structure TestSkeleton : Type where
  name : String
  status : String
deriving DecidableEq, Repr

/-- A suite with the fields cleared by detail stripping removed: name,
child-suite skeletons, and test skeletons. -/
inductive SuiteSkeleton : Type where
  | mk : String → List SuiteSkeleton → List TestSkeleton → SuiteSkeleton

mutual

/-- The skeleton of a suite: every field other than the setups,
teardowns and test bodies that the detail-stripping pass clears. -/
def suiteSkeleton : TestSuite → SuiteSkeleton
  | TestSuite.mk n _ _ ss ts =>
    SuiteSkeleton.mk n (suitesSkeleton ss)
      (ts.map fun t => { name := t.name, status := t.status })

/-- `suiteSkeleton` over a list of suites. -/
def suitesSkeleton : List TestSuite → List SuiteSkeleton
  | [] => []
  | s :: rest => suiteSkeleton s :: suitesSkeleton rest

end

mutual

/-- A well-formed source document, used to relate the streaming omission
filter to post-hoc tree stripping.  Modelled from the spec: the external
event source serialises such a tree into Open/Close events in document
order. -/
inductive XTree : Type where
  | node : Elem → XForest → XTree

/-- A list of sibling subtrees. -/
inductive XForest : Type where
  | nil : XForest
  | cons : XTree → XForest → XForest

end

mutual

/-- Serialisation of a document tree into iterparse events. -/
def treeEvents : XTree → List Event
  | XTree.node e cs => (Phase.Open, e) :: (forestEvents cs ++ [(Phase.Close, e)])

/-- Serialisation of a forest. -/
def forestEvents : XForest → List Event
  | XForest.nil => []
  | XForest.cons t ts => treeEvents t ++ forestEvents ts

end

mutual

/-- Post-hoc stripping of every subtree rooted at a non-teardown
kw/for/if element, applied recursively to the kept nodes. -/
def stripTree : XTree → XTree
  | XTree.node e cs => XTree.node e (stripForest cs)

/-- `stripTree` over a forest, dropping omitted roots. -/
def stripForest : XForest → XForest
  | XForest.nil => XForest.nil
  | XForest.cons (XTree.node e cs) ts =>
    if omitRoot e then stripForest ts
    else XForest.cons (XTree.node e (stripForest cs)) (stripForest ts)

end

mutual

/-- No node of the tree is a non-teardown kw/for/if element. -/
def treeClean : XTree → Bool
  | XTree.node e cs => !omitRoot e && forestClean cs

/-- `treeClean` over a forest. -/
def forestClean : XForest → Bool
  | XForest.nil => true
  | XForest.cons t ts => treeClean t && forestClean ts

end

/-- The root element of a document tree. -/
def rootElem : XTree → Elem
  | XTree.node e _ => e

/-- A keyword element with a `name` attribute. -/
def kwNamed (n : String) : Elem :=
  { tag := "kw", attrs := [("name", n)], text := none }

/-- A status element with the given text. -/
def statusElem (t : String) : Elem :=
  { tag := "status", attrs := [], text := some t }

/-- A test element. -/
def testElem : Elem :=
  { tag := "test", attrs := [("name", "T")], text := none }

/-- A tag element with text `smoke`. -/
def tagSmoke : Elem :=
  { tag := "tag", attrs := [], text := some "smoke" }

/-- A message element. -/
def msgElem : Elem :=
  { tag := "msg", attrs := [], text := some "hello" }

/-- Matchers for flattening by name, matching exactly the name `B`. -/
def matchB : Matchers :=
  { byName := true, nameMatch := fun n _ => n = "B",
    byType := false, typeMatch := fun _ => false,
    byTags := false, tagsMatch := fun _ => false }

/-- Matchers for flattening by tags, matching any nonempty accumulated
tag list. -/
def matchAnyTag : Matchers :=
  { byName := false, nameMatch := fun _ _ => false,
    byType := false, typeMatch := fun _ => false,
    byTags := true, tagsMatch := fun ts => !ts.isEmpty }

/-- A keyword nested three deep where only the middle level matches
`matchB`, each level carrying its own status element. -/
def threeDeep : List Event :=
  [(Phase.Open, kwNamed "A"), (Phase.Open, kwNamed "B"), (Phase.Open, kwNamed "C"),
   (Phase.Open, statusElem "s3"), (Phase.Close, statusElem "s3"), (Phase.Close, kwNamed "C"),
   (Phase.Open, statusElem "s2"), (Phase.Close, statusElem "s2"), (Phase.Close, kwNamed "B"),
   (Phase.Open, statusElem "s1"), (Phase.Close, statusElem "s1"), (Phase.Close, kwNamed "A")]

/-- Claim C1: the message-flattening transform is a pure function of the
original status text with exactly three cases: empty or missing input
yields exactly the bare flattened note, input starting with the HTML
marker is forwarded with the 6-character marker stripped and trimmed,
and any other input is HTML-escaped; in each non-empty case a horizontal
rule and the flattened-content note are appended, the whole prefixed
with the HTML marker.  The two concrete examples of the claim are
included. -/
theorem c1_create_flattened_message (o : String) (h : o ≠ "") :
    (pyStartsWith o "*HTML*" = true →
      createFlattenedMessage (some o) =
        "*HTML* " ++ (pyStrip (pyDrop o 6) ++ "<hr><i>Content flattened.</i>"))
    ∧ (pyStartsWith o "*HTML*" = false →
      createFlattenedMessage (some o) =
        "*HTML* " ++ (htmlEscape o ++ "<hr><i>Content flattened.</i>"))
    ∧ createFlattenedMessage none = "*HTML* <i>Content flattened.</i>"
    ∧ createFlattenedMessage (some "") = "*HTML* <i>Content flattened.</i>"
    ∧ createFlattenedMessage (some "*HTML* <b>ok</b>")
        = "*HTML* <b>ok</b><hr><i>Content flattened.</i>"
    ∧ createFlattenedMessage (some "a < b")
        = "*HTML* a &lt; b<hr><i>Content flattened.</i>" := by
  refine ⟨?_, ?_, rfl, rfl, by decide, by decide⟩
  · intro hs
    simp only [createFlattenedMessage, h, if_false, hs, if_true]
    rcases pyStrip (pyDrop o 6) with ⟨l⟩
    show String.mk (("*HTML* ".data ++ (l ++ "<hr>".data)) ++ "<i>Content flattened.</i>".data)
      = String.mk ("*HTML* ".data ++ (l ++ "<hr><i>Content flattened.</i>".data))
    simp
  · intro hs
    simp only [createFlattenedMessage, h, if_false, hs, Bool.false_eq_true, if_true]
    rcases htmlEscape o with ⟨l⟩
    show String.mk (("*HTML* ".data ++ (l ++ "<hr>".data)) ++ "<i>Content flattened.</i>".data)
      = String.mk ("*HTML* ".data ++ (l ++ "<hr><i>Content flattened.</i>".data))
    simp

/-- Witness for C1 at the concrete HTML-marked input `*HTML* x`. -/
theorem c1_witness :
    createFlattenedMessage (some "*HTML* x")
      = "*HTML* " ++ (pyStrip (pyDrop "*HTML* x" 6) ++ "<hr><i>Content flattened.</i>") :=
  (c1_create_flattened_message "*HTML* x" (by decide)).1 (by decide)

/-- The transcription of `_omit_keywords` agrees with the claim-side
description of its forwarded events and cleared elements. -/
theorem omitKeywordsC_eq_spec (l : List Event) : ∀ c : Int,
    (omitKeywordsC l c).1 = specOmitForward l c
      ∧ (omitKeywordsC l c).2 = specOmitCleared l c := by
  induction l with
  | nil => intro c; exact ⟨rfl, rfl⟩
  | cons hd tl ih =>
    intro c
    obtain ⟨p, e⟩ := hd
    cases p <;> cases hom : omitRoot e <;>
      simp only [omitKeywordsC, specOmitForward, specOmitCleared, hom, Bool.true_and,
        Bool.false_and, Bool.and_true, Bool.and_false, if_true, if_false, decide_True,
        decide_False, Bool.not_true, Bool.not_false, Bool.and_self, ite_true, ite_false,
        Bool.true_and] <;>
      split_ifs <;>
      simp_all [omitKeywordsC, specOmitForward, specOmitCleared]

/-- Claim C2: the omission filter forwards an event iff the running
counter of currently-open omitted subtrees is zero at that event, the
counter being incremented exactly on Open of a kw/for/if element whose
type is not TEARDOWN and decremented after that element's Close; every
suppressed element is cleared on its Close event; while/iter/try
elements never trigger omission, and kw/for/if elements with
type TEARDOWN do not either, while those without it always do. -/
theorem c2_omission_forward_iff (l : List Event) (c : Int) (e : Elem) :
    ((omitKeywordsC l c).1 = specOmitForward l c)
    ∧ ((omitKeywordsC l c).2 = specOmitCleared l c)
    ∧ (e.tag = "while" ∨ e.tag = "iter" ∨ e.tag = "try" → omitRoot e = false)
    ∧ ((e.tag = "kw" ∨ e.tag = "for" ∨ e.tag = "if") →
        e.get "type" = some "TEARDOWN" → omitRoot e = false)
    ∧ ((e.tag = "kw" ∨ e.tag = "for" ∨ e.tag = "if") →
        e.get "type" ≠ some "TEARDOWN" → omitRoot e = true) := by
  refine ⟨(omitKeywordsC_eq_spec l c).1, (omitKeywordsC_eq_spec l c).2, ?_, ?_, ?_⟩
  · rintro (h | h | h) <;> simp [omitRoot, h]
  · intro _ h2
    simp [omitRoot, h2]
  · rintro (h | h | h) h2 <;> simp [omitRoot, h, h2]

/-- Witness for C2: a teardown keyword is not an omission root, an
ordinary keyword is, and on a concrete two-event stream the filter
agrees with the claim-side description. -/
theorem c2_witness :
    omitRoot { tag := "while", attrs := [], text := none } = false
    ∧ omitRoot { tag := "kw", attrs := [("type", "TEARDOWN")], text := none } = false
    ∧ omitRoot (kwNamed "K") = true
    ∧ (omitKeywordsC [(Phase.Open, kwNamed "K"), (Phase.Close, kwNamed "K")] 0).1
        = specOmitForward [(Phase.Open, kwNamed "K"), (Phase.Close, kwNamed "K")] 0 :=
  ⟨(c2_omission_forward_iff [] 0 { tag := "while", attrs := [], text := none }).2.2.1
      (Or.inl rfl),
   (c2_omission_forward_iff [] 0
      { tag := "kw", attrs := [("type", "TEARDOWN")], text := none }).2.2.2.1
      (Or.inl rfl) rfl,
   (c2_omission_forward_iff [] 0 (kwNamed "K")).2.2.2.2 (Or.inl rfl) (by decide),
   (c2_omission_forward_iff [(Phase.Open, kwNamed "K"), (Phase.Close, kwNamed "K")] 0
      (kwNamed "K")).1⟩

/-- One step of `_flatten_keywords` never changes the element's tag. -/
theorem flattenStepMid_tag (m : Matchers) (s : FState) (p : Phase) (e : Elem) :
    (flattenStepMid m s p e).2.tag = e.tag := by
  cases p <;> simp only [flattenStepMid] <;> split_ifs <;> rfl

/-- A `msg` element passes one step of `_flatten_keywords` untouched,
with unchanged state. -/
theorem flattenStepMid_msg (m : Matchers) (s : FState) (p : Phase) (e : Elem)
    (h : e.tag = "msg") : flattenStepMid m s p e = (s, e) := by
  cases p <;> simp [flattenStepMid, isContainer, h]

/-- Unfolding of `runFlatten` on one event. -/
theorem runFlatten_cons (m : Matchers) (p : Phase) (e : Elem) (rest : List Event)
    (s : FState) :
    runFlatten m ((p, e) :: rest) s =
      if flattenForward m s p e then
        ((p, (flattenStepMid m s p e).2) :: (runFlatten m rest (flattenNext m s p e)).1,
         (runFlatten m rest (flattenNext m s p e)).2.1,
         (runFlatten m rest (flattenNext m s p e)).2.2)
      else
        ((runFlatten m rest (flattenNext m s p e)).1,
         (flattenStepMid m s p e).2 :: (runFlatten m rest (flattenNext m s p e)).2.1,
         (runFlatten m rest (flattenNext m s p e)).2.2) := by
  simp only [runFlatten]

/-- The flattening filter preserves the subsequence of `msg` events
verbatim and in order. -/
theorem runFlatten_msg_filter (m : Matchers) (l : List Event) : ∀ s : FState,
    (runFlatten m l s).1.filter (fun ev => decide (ev.2.tag = "msg"))
      = l.filter (fun ev => decide (ev.2.tag = "msg")) := by
  induction l with
  | nil => intro s; rfl
  | cons hd tl ih =>
    intro s
    obtain ⟨p, e⟩ := hd
    rw [runFlatten_cons]
    by_cases hm : e.tag = "msg"
    · have hmid := flattenStepMid_msg m s p e hm
      have hfwd : flattenForward m s p e = true := by
        simp [flattenForward, hm]
      simp [hfwd, hmid, List.filter_cons, hm, ih]
    · cases hfwd : flattenForward m s p e
      · simp [List.filter_cons, hm, ih]
      · have ht := flattenStepMid_tag m s p e
        simp [List.filter_cons, hm, ht, ih]

/-- Claim C3: the flattening filter forwards an event iff the nesting
counter `started` (after the step's own bookkeeping) is at most 0 or
the element's tag is `msg`; otherwise the element is cleared and the
event suppressed.  Consequently the subsequence of `msg` events is
preserved verbatim and in order. -/
theorem c3_flatten_forward_iff (m : Matchers) (s : FState) (p : Phase) (e : Elem)
    (rest : List Event) (l : List Event) :
    (((flattenStepMid m s p e).1.started ≤ 0 ∨ e.tag = "msg") →
      runFlatten m ((p, e) :: rest) s =
        ((p, (flattenStepMid m s p e).2) :: (runFlatten m rest (flattenNext m s p e)).1,
         (runFlatten m rest (flattenNext m s p e)).2.1,
         (runFlatten m rest (flattenNext m s p e)).2.2))
    ∧ (¬((flattenStepMid m s p e).1.started ≤ 0 ∨ e.tag = "msg") →
      runFlatten m ((p, e) :: rest) s =
        ((runFlatten m rest (flattenNext m s p e)).1,
         (flattenStepMid m s p e).2 :: (runFlatten m rest (flattenNext m s p e)).2.1,
         (runFlatten m rest (flattenNext m s p e)).2.2))
    ∧ ((runFlatten m l s).1.filter (fun ev => decide (ev.2.tag = "msg"))
        = l.filter (fun ev => decide (ev.2.tag = "msg"))) := by
  refine ⟨?_, ?_, runFlatten_msg_filter m l s⟩
  · intro h
    have hfwd : flattenForward m s p e = true := by
      simp [flattenForward]
      tauto
    rw [runFlatten_cons, if_pos hfwd]
  · intro h
    push_neg at h
    have hfwd : flattenForward m s p e = false := by
      simp [flattenForward]
      exact ⟨by omega, h.2⟩
    rw [runFlatten_cons, if_neg (by simp [hfwd])]

/-- Witness for C3 on concrete events: a `msg` event is forwarded even
while flattening, and a `status` close event at nesting depth 1 is
suppressed. -/
theorem c3_witness :
    runFlatten matchB [(Phase.Open, msgElem)] { started := 3, tags := [], inside := 2 }
      = ([(Phase.Open, msgElem)], [],
         { started := 3, tags := [], inside := 2 })
    ∧ runFlatten matchB [(Phase.Close, statusElem "s")]
        { started := 3, tags := [], inside := 2 }
      = ([], [statusElem "s"], { started := 3, tags := [], inside := 2 }) :=
  ⟨(c3_flatten_forward_iff matchB { started := 3, tags := [], inside := 2 }
      Phase.Open msgElem [] []).1 (Or.inr rfl),
   (c3_flatten_forward_iff matchB { started := 3, tags := [], inside := 2 }
      Phase.Close (statusElem "s") [] []).2.1 (by decide)⟩

/-- Claim C4: while already flattening (`started >= 0`), the Open of a
container only increments the counters and resets the tag accumulator —
the result does not depend on the matchers at all — and a status text
rewrite happens only on Close of a status element while `started` is
exactly 0.  On the three-deep nesting where only the middle keyword
matches by name, exactly the middle level's status close is rewritten,
the inner subtree is suppressed and cleared, and the outer level passes
through unmodified. -/
theorem c4_flatten_nesting (m : Matchers) (s : FState) (p : Phase) (e : Elem) :
    (0 ≤ s.started → isContainer e.tag = true →
      flattenStepMid m s Phase.Open e =
        ({ started := s.started + 1, tags := [], inside := s.inside + 1 }, e))
    ∧ ((flattenStepMid m s p e).2 ≠ e →
        e.tag = "status" ∧ p = Phase.Close ∧ s.started = 0
          ∧ (flattenStepMid m s p e).2
              = { e with text := some (createFlattenedMessage e.text) })
    ∧ runFlatten matchB threeDeep initialFState =
        ([(Phase.Open, kwNamed "A"), (Phase.Open, kwNamed "B"),
          (Phase.Open, statusElem "s2"),
          (Phase.Close, statusElem "*HTML* s2<hr><i>Content flattened.</i>"),
          (Phase.Close, kwNamed "B"),
          (Phase.Open, statusElem "s1"), (Phase.Close, statusElem "s1"),
          (Phase.Close, kwNamed "A")],
         [kwNamed "C", statusElem "s3", statusElem "s3", kwNamed "C"],
         initialFState) := by
  refine ⟨?_, ?_, by decide⟩
  · intro hs hc
    simp [flattenStepMid, hc, hs]
  · intro hne
    cases p
    · exfalso
      apply hne
      simp only [flattenStepMid]
      split_ifs <;> rfl
    · simp only [flattenStepMid] at hne ⊢
      by_cases h1 : isContainer e.tag = true
      · rw [if_pos h1] at hne
        exact absurd rfl hne
      · rw [if_neg h1] at hne ⊢
        by_cases h2 : (m.byTags && decide (s.inside ≠ 0) && decide (s.started < 0)
            && decide (e.tag = "tag")) = true
        · rw [if_pos h2] at hne
          exfalso
          apply hne
          split_ifs <;> rfl
        · rw [if_neg h2] at hne ⊢
          by_cases h3 : (decide (s.started = 0) && decide (e.tag = "status")) = true
          · have h4 := h3
            simp only [Bool.and_eq_true, decide_eq_true_eq] at h4
            exact ⟨h4.2, by trivial, h4.1, by rw [if_pos h3]⟩
          · rw [if_neg h3] at hne
            exact absurd rfl hne

/-- Witness for C4: a container Open at `started = 0` with a matcher
that would otherwise match only increments, and the rewrite
characterisation applied to a rewritten status close. -/
theorem c4_witness :
    flattenStepMid matchB { started := 0, tags := ["x"], inside := 1 } Phase.Open
        (kwNamed "B")
      = ({ started := 1, tags := [], inside := 2 }, kwNamed "B") :=
  (c4_flatten_nesting matchB { started := 0, tags := ["x"], inside := 1 } Phase.Open
    (kwNamed "B")).1 (by decide) (by decide)

/-- Counterexample to claim C5 as stated.  The claim says a `tag`
element's text is accumulated exactly when the element closes while
inside a `test` but not inside a nested container and flattening has
not yet started.  On a stream where a `tag` element closes directly
inside a `test` (no container open, `inside = 0`), with a tag matcher
that matches any nonempty accumulation, the filter accumulates nothing
and does not start flattening; conversely, with the same `tag` element
closing inside a `kw` container and no `test` element at all, the
filter does accumulate and starts flattening. -/
theorem c5_counterexample :
    (runFlatten matchAnyTag
        [(Phase.Open, testElem), (Phase.Open, tagSmoke), (Phase.Close, tagSmoke)]
        initialFState).2.2
      = { started := -1, tags := [], inside := 0 }
    ∧ (runFlatten matchAnyTag
        [(Phase.Open, kwNamed "K"), (Phase.Open, tagSmoke), (Phase.Close, tagSmoke)]
        initialFState).2.2
      = { started := 0, tags := ["smoke"], inside := 1 } := by
  decide

/-- Claim C5 as amended: the flattening filter accumulates a `tag`
element's text exactly when the element closes while at least one
container element is open (`inside` nonzero), flattening has not yet
started, and a tag pattern set is configured; the appended text is the
element's text (empty for missing text), and when the accumulated texts
match the tag matcher, flattening starts (`started` becomes 0) at that
very Close event. -/
theorem c5_tag_accumulation (m : Matchers) (s : FState) (e : Elem) :
    ((flattenStepMid m s Phase.Close e).1.tags ≠ s.tags ↔
      (m.byTags = true ∧ s.inside ≠ 0 ∧ s.started < 0 ∧ e.tag = "tag"))
    ∧ ((m.byTags = true ∧ s.inside ≠ 0 ∧ s.started < 0 ∧ e.tag = "tag") →
        (flattenStepMid m s Phase.Close e).1.tags = s.tags ++ [(e.text).getD ""]
          ∧ (m.tagsMatch (s.tags ++ [(e.text).getD ""]) = true →
              (flattenStepMid m s Phase.Close e).1.started = 0)) := by
  have hlen : ∀ (l : List String) (x : String), l ++ [x] ≠ l := by
    intro l x h
    have := congrArg List.length h
    simp at this
  constructor
  · constructor
    · intro hne
      simp only [flattenStepMid] at hne
      by_cases h1 : isContainer e.tag = true
      · rw [if_pos h1] at hne
        exact absurd rfl hne
      · rw [if_neg h1] at hne
        by_cases h2 : (m.byTags && decide (s.inside ≠ 0) && decide (s.started < 0)
            && decide (e.tag = "tag")) = true
        · simp only [Bool.and_eq_true, decide_eq_true_eq] at h2
          exact ⟨h2.1.1.1, h2.1.1.2, h2.1.2, h2.2⟩
        · rw [if_neg h2] at hne
          exfalso
          apply hne
          split_ifs <;> rfl
    · rintro ⟨hb, hi, hs, ht⟩
      have h1 : isContainer e.tag = true → False := by
        intro h
        rw [ht] at h
        exact absurd h (by decide)
      have h2 : (m.byTags && decide (s.inside ≠ 0) && decide (s.started < 0)
          && decide (e.tag = "tag")) = true := by
        simp [hb, hi, hs, ht]
      simp only [flattenStepMid, if_neg (fun h => h1 h), if_pos h2]
      split_ifs <;> exact hlen s.tags _
  · rintro ⟨hb, hi, hs, ht⟩
    have h1 : isContainer e.tag = true → False := by
      intro h
      rw [ht] at h
      exact absurd h (by decide)
    have h2 : (m.byTags && decide (s.inside ≠ 0) && decide (s.started < 0)
        && decide (e.tag = "tag")) = true := by
      simp [hb, hi, hs, ht]
    simp only [flattenStepMid, if_neg (fun h => h1 h), if_pos h2]
    constructor
    · split_ifs <;> rfl
    · intro hmatch
      rw [if_pos hmatch]

/-- Witness for C5 (amended): a `tag` close inside one open container
appends its text and starts flattening under the any-nonempty tag
matcher. -/
theorem c5_witness :
    (flattenStepMid matchAnyTag { started := -1, tags := [], inside := 1 }
        Phase.Close tagSmoke).1.tags = [] ++ ["smoke"]
    ∧ (flattenStepMid matchAnyTag { started := -1, tags := [], inside := 1 }
        Phase.Close tagSmoke).1.started = 0 := by
  have h := (c5_tag_accumulation matchAnyTag
    { started := -1, tags := [], inside := 1 } tagSmoke).2
    ⟨rfl, by decide, by decide, rfl⟩
  exact ⟨h.1, h.2 (by decide)⟩

/-- Unfolding of the omission filter's forwarded events on an Open. -/
theorem omitOut_open (e : Elem) (rest : List Event) (c : Int) :
    omitOut ((Phase.Open, e) :: rest) c =
      (if (if omitRoot e then c + 1 else c) = 0 then [(Phase.Open, e)] else [])
        ++ omitOut rest (if omitRoot e then c + 1 else c) := by
  cases hom : omitRoot e <;>
    simp only [omitOut, omitKeywordsC, hom, ite_true, ite_false, Bool.false_and,
      Bool.true_and, Bool.and_false, Bool.and_true, decide_True, decide_False,
      Bool.not_true, Bool.not_false] <;>
    split_ifs <;> simp_all

/-- Unfolding of the omission filter's forwarded events on a Close. -/
theorem omitOut_close (e : Elem) (rest : List Event) (c : Int) :
    omitOut ((Phase.Close, e) :: rest) c =
      (if c = 0 then [(Phase.Close, e)] else [])
        ++ omitOut rest (if omitRoot e then c - 1 else c) := by
  cases hom : omitRoot e <;>
    simp only [omitOut, omitKeywordsC, hom, ite_true, ite_false, Bool.false_and,
      Bool.true_and, Bool.and_false, Bool.and_true, decide_True, decide_False,
      Bool.not_true, Bool.not_false] <;>
    split_ifs <;> simp_all

mutual

/-- While at least one omitted subtree is open, an entire well-formed
subtree's event run is suppressed and the counter returns to its entry
value. -/
theorem treeSuppress : ∀ (t : XTree) (rest : List Event) (c : Int), 1 ≤ c →
    omitOut (treeEvents t ++ rest) c = omitOut rest c
  | XTree.node e cs, rest, c, hc => by
    cases hom : omitRoot e with
    | true =>
      rw [treeEvents, List.cons_append, omitOut_open]
      simp only [hom, ite_true]
      rw [if_neg (by omega : ¬(c + 1 = 0)), List.nil_append, List.append_assoc,
        List.singleton_append,
        forestSuppress cs ((Phase.Close, e) :: rest) (c + 1) (by omega),
        omitOut_close]
      simp only [hom, ite_true]
      rw [if_neg (by omega : ¬(c + 1 = 0)), List.nil_append,
        (by omega : c + 1 - 1 = c)]
    | false =>
      rw [treeEvents, List.cons_append, omitOut_open]
      simp only [hom, Bool.false_eq_true, if_false]
      rw [if_neg (by omega : ¬(c = 0)), List.nil_append, List.append_assoc,
        List.singleton_append,
        forestSuppress cs ((Phase.Close, e) :: rest) c hc, omitOut_close]
      simp only [hom, Bool.false_eq_true, if_false]
      rw [if_neg (by omega : ¬(c = 0)), List.nil_append]

/-- `treeSuppress` over a forest. -/
theorem forestSuppress : ∀ (ts : XForest) (rest : List Event) (c : Int), 1 ≤ c →
    omitOut (forestEvents ts ++ rest) c = omitOut rest c
  | XForest.nil, rest, c, _ => by rw [forestEvents, List.nil_append]
  | XForest.cons t ts, rest, c, hc => by
    rw [forestEvents, List.append_assoc, treeSuppress t _ c hc,
      forestSuppress ts rest c hc]

end

mutual

/-- The omission filter maps a well-formed subtree's event run at
counter 0 to the serialisation of the stripped subtree (or drops it
entirely when its root is omitted). -/
theorem treeMain : ∀ (t : XTree) (rest : List Event),
    omitOut (treeEvents t ++ rest) 0 =
      (if omitRoot (rootElem t) then [] else treeEvents (stripTree t))
        ++ omitOut rest 0
  | XTree.node e cs, rest => by
    cases hom : omitRoot e with
    | true =>
      rw [treeEvents, List.cons_append, omitOut_open]
      simp only [hom, ite_true]
      rw [if_neg (by omega : ¬((0:Int) + 1 = 0)), List.nil_append, List.append_assoc,
        List.singleton_append,
        forestSuppress cs ((Phase.Close, e) :: rest) ((0:Int) + 1) (by omega),
        omitOut_close]
      simp only [hom, ite_true]
      rw [if_neg (by omega : ¬((0:Int) + 1 = 0)), List.nil_append,
        (by omega : (0:Int) + 1 - 1 = 0)]
      simp [rootElem, hom]
    | false =>
      rw [treeEvents, List.cons_append, omitOut_open]
      simp only [hom, Bool.false_eq_true, if_false]
      rw [if_pos trivial, List.append_assoc, List.singleton_append,
        List.singleton_append, forestMain cs ((Phase.Close, e) :: rest),
        omitOut_close, if_pos (rfl : (0:Int) = 0)]
      simp only [hom, Bool.false_eq_true, if_false]
      simp [rootElem, hom, stripTree, treeEvents]

/-- `treeMain` over a forest. -/
theorem forestMain : ∀ (ts : XForest) (rest : List Event),
    omitOut (forestEvents ts ++ rest) 0 =
      forestEvents (stripForest ts) ++ omitOut rest 0
  | XForest.nil, rest => by
    rw [forestEvents, List.nil_append, stripForest, forestEvents, List.nil_append]
  | XForest.cons (XTree.node e cs) ts, rest => by
    rw [forestEvents, List.append_assoc, treeMain (XTree.node e cs) _,
      forestMain ts rest]
    cases hom : omitRoot e with
    | true => simp [stripForest, hom, rootElem]
    | false => simp [stripForest, hom, rootElem, stripTree, treeEvents, forestEvents]

end

/-- The stripped forest contains no omitted roots at any level. -/
theorem stripForestClean : ∀ ts : XForest, forestClean (stripForest ts) = true
  | XForest.nil => rfl
  | XForest.cons (XTree.node e cs) ts => by
    cases hom : omitRoot e with
    | true =>
      rw [stripForest, if_pos hom]
      exact stripForestClean ts
    | false =>
      rw [stripForest, if_neg (by simp [hom])]
      simp [forestClean, treeClean, hom, stripForestClean cs, stripForestClean ts]

/-- Claim C6: for any well-formed document whose root is itself not an
omitted element (as for the real `robot` root), the event stream the
omission filter hands to the tree builder is exactly the serialisation
of the tree obtained by post-hoc stripping of every non-teardown
kw/for/if subtree, so the built trees coincide; and the stripped tree
contains no non-teardown kw/for/if node at any level. -/
theorem c6_omission_equals_stripping (e : Elem) (cs : XForest)
    (h : omitRoot e = false) :
    omitOut (treeEvents (XTree.node e cs)) 0
        = treeEvents (stripTree (XTree.node e cs))
      ∧ treeClean (stripTree (XTree.node e cs)) = true := by
  constructor
  · have hmain := treeMain (XTree.node e cs) []
    rw [List.append_nil] at hmain
    rw [hmain, rootElem, if_neg (by simp [h])]
    simp [omitOut, omitKeywordsC]
  · rw [stripTree, treeClean]
    simp [h, stripForestClean cs]

/-- Witness for C6 on a concrete document: a suite holding one ordinary
keyword (with a nested status) and one teardown keyword. -/
theorem c6_witness :
    omitOut
        (treeEvents (XTree.node { tag := "robot", attrs := [], text := none }
          (XForest.cons
            (XTree.node (kwNamed "K")
              (XForest.cons (XTree.node (statusElem "PASS") XForest.nil) XForest.nil))
            (XForest.cons
              (XTree.node { tag := "kw", attrs := [("type", "TEARDOWN")], text := none }
                XForest.nil)
              XForest.nil)))) 0
      = treeEvents (stripTree (XTree.node { tag := "robot", attrs := [], text := none }
          (XForest.cons
            (XTree.node (kwNamed "K")
              (XForest.cons (XTree.node (statusElem "PASS") XForest.nil) XForest.nil))
            (XForest.cons
              (XTree.node { tag := "kw", attrs := [("type", "TEARDOWN")], text := none }
                XForest.nil)
              XForest.nil)))) :=
  (c6_omission_equals_stripping { tag := "robot", attrs := [], text := none }
    (XForest.cons
      (XTree.node (kwNamed "K")
        (XForest.cons (XTree.node (statusElem "PASS") XForest.nil) XForest.nil))
      (XForest.cons
        (XTree.node { tag := "kw", attrs := [("type", "TEARDOWN")], text := none }
          XForest.nil)
        XForest.nil))
    (by decide)).1

/-- Claim C7: `_single_result` returns a result iff the build succeeded
with that result; every failure kind is collapsed into the single
reading-failed error naming the source and the cause, and on failure no
result is returned (the outcome is always either a success carrying the
built result or that single error). -/
theorem c7_single_result {α : Type} (sourceId : String) (outcome : BuildOutcome α) :
    (∀ r : α, singleResult sourceId outcome = Except.ok r ↔
        outcome = BuildOutcome.ok r)
    ∧ (∀ msg : String,
        outcome = BuildOutcome.ioError msg ∨ outcome = BuildOutcome.otherError msg →
          singleResult sourceId outcome
            = Except.error (readingFailedMessage sourceId msg))
    ∧ ((∃ r, outcome = BuildOutcome.ok r)
        ∨ ∃ msg, singleResult sourceId outcome
            = Except.error (readingFailedMessage sourceId msg)) := by
  refine ⟨?_, ?_, ?_⟩
  · intro r
    cases outcome <;> simp [singleResult]
  · rintro msg (h | h) <;> subst h <;> rfl
  · cases outcome with
    | ok r => exact Or.inl ⟨r, rfl⟩
    | ioError m => exact Or.inr ⟨m, rfl⟩
    | otherError m => exact Or.inr ⟨m, rfl⟩

/-- Witness for C7: a concrete IO failure is wrapped into the single
reading-failed error. -/
theorem c7_witness :
    singleResult "out.xml" (BuildOutcome.ioError "boom" : BuildOutcome Nat)
      = Except.error (readingFailedMessage "out.xml" "boom") :=
  (c7_single_result "out.xml" (BuildOutcome.ioError "boom" : BuildOutcome Nat)).2.1
    "boom" (Or.inl rfl)

/-- Counterexample to claim C8 as stated: when flattening is requested
(a nonempty flatten pattern list) but keywords are excluded, `_parse`
applies the omission filter, not the flattening filter — so "when
flattening is requested omission is not applied" fails. -/
theorem c8_counterexample :
    chooseFilter false ["name:Foo"] = AppliedFilter.omission
      ∧ AppliedFilter.omission ≠ AppliedFilter.flattening := by
  decide

/-- Claim C8 as amended: `_parse` wraps the event source in at most one
filter; omission is chosen exactly when keywords are excluded, and
flattening exactly when keywords are included and the flatten pattern
list is nonempty — in particular, when flattening is requested together
with keyword exclusion, omission (not flattening) is applied. -/
theorem c8_filter_exclusive (includeKeywords : Bool) (pats : List String) :
    (chooseFilter includeKeywords pats = AppliedFilter.omission ↔
      includeKeywords = false)
    ∧ (chooseFilter includeKeywords pats = AppliedFilter.flattening ↔
      includeKeywords = true ∧ pats ≠ [])
    ∧ ¬(chooseFilter includeKeywords pats = AppliedFilter.omission
        ∧ chooseFilter includeKeywords pats = AppliedFilter.flattening) := by
  cases includeKeywords <;> cases pats <;> simp [chooseFilter]

/-- Witness for C8 (amended): with keywords included and one pattern,
the flattening filter is chosen. -/
theorem c8_witness :
    chooseFilter true ["kw"] = AppliedFilter.flattening :=
  (c8_filter_exclusive true ["kw"]).2.1.mpr ⟨rfl, by decide⟩

mutual

/-- After the `RemoveKeywords` pass, every suite's setup and teardown
are gone and every test body is empty. -/
theorem suiteStripped_removeKeywords : ∀ s : TestSuite,
    suiteStripped (removeKeywordsSuite s) = true
  | TestSuite.mk _ _ _ ss ts => by
    rw [removeKeywordsSuite, suiteStripped]
    simp [suitesStripped_removeKeywords ss, List.all_map, Function.comp]

/-- `suiteStripped_removeKeywords` over a list of suites. -/
theorem suitesStripped_removeKeywords : ∀ ss : List TestSuite,
    suitesStripped (removeKeywordsSuites ss) = true
  | [] => rfl
  | s :: rest => by
    rw [removeKeywordsSuites, suitesStripped]
    simp [suiteStripped_removeKeywords s, suitesStripped_removeKeywords rest]

end

mutual

/-- The `RemoveKeywords` pass changes no field outside the setups,
teardowns and test bodies. -/
theorem suiteSkeleton_removeKeywords : ∀ s : TestSuite,
    suiteSkeleton (removeKeywordsSuite s) = suiteSkeleton s
  | TestSuite.mk _ _ _ ss ts => by
    rw [removeKeywordsSuite, suiteSkeleton, suiteSkeleton,
      suitesSkeleton_removeKeywords ss]
    simp [List.map_map, Function.comp]

/-- `suiteSkeleton_removeKeywords` over a list of suites. -/
theorem suitesSkeleton_removeKeywords : ∀ ss : List TestSuite,
    suitesSkeleton (removeKeywordsSuites ss) = suitesSkeleton ss
  | [] => rfl
  | s :: rest => by
    rw [removeKeywordsSuites, suitesSkeleton, suitesSkeleton,
      suiteSkeleton_removeKeywords s, suitesSkeleton_removeKeywords rest]

end

/-- Claim C9: when keywords are included the post-build pass leaves the
tree untouched; when they are excluded, the `RemoveKeywords` visitor
empties every suite's setup and teardown and every test's body at every
level, and modifies no other field of any node. -/
theorem c9_remove_keywords (s : TestSuite) :
    buildFinalize true s = s
    ∧ buildFinalize false s = removeKeywordsSuite s
    ∧ suiteStripped (removeKeywordsSuite s) = true
    ∧ suiteSkeleton (removeKeywordsSuite s) = suiteSkeleton s :=
  ⟨rfl, rfl, suiteStripped_removeKeywords s, suiteSkeleton_removeKeywords s⟩

/-- Claim C10: the `ExecutionResult` factory with zero sources fails
with exactly the data error `One or more data source needed.`, before
any dispatch runs — whatever the dispatch would do, no source is opened
and no result is produced. -/
theorem c10_factory_no_sources {α : Type}
    (dispatch : List String → List String × Except String α) :
    executionResultFactory dispatch [] =
      ([], Except.error "One or more data source needed.") := rfl

/-- Witness for C10 at a concrete dispatch function. -/
theorem c10_witness :
    executionResultFactory (fun srcs => (srcs, Except.ok (0 : Nat))) [] =
      ([], Except.error "One or more data source needed.") :=
  c10_factory_no_sources (fun srcs => (srcs, Except.ok (0 : Nat)))
